import Mathlib

/-!
Verification of `speedtest_equivalent.py` against its specification.

The script delegates the measurement engine to the external `speedtest`
library; its own code consists of `check_library`, `run_speedtest`,
`display_results`, `save_results` and `main`.  We embed that code
shallowly: the outcomes of the external library calls are an explicit
environment, exceptions become `Except`, `sys.exit(n)` becomes the
numeric exit code `n`, and the on-disk result log becomes a `FileState`.
Components that the specification describes but the script delegates to
the library (latency prober, server selector, throughput measurer) are
modelled from the spec, marked as such in their doc comments.
-/

namespace SpeedtestEq

/-- The argument record of `speedtest.Speedtest(...)` as constructed at
lines 41–45 of `speedtest_equivalent.py`. -/
structure SpeedtestClient where
  secure : Bool
  source_address : Option String
  timeout : Nat
deriving DecidableEq, Repr

/-- The client object construction in `run_speedtest` (lines 41–45):
`secure=True, source_address=None, timeout=10`. -/
def theClient : SpeedtestClient :=
  { secure := true, source_address := none, timeout := 10 }

/-- Errors raised by the external library, mirroring the two `except`
clauses at lines 100–106: `speedtest.SpeedtestException` and any other
`Exception`. -/
inductive LibErr where
  | speedtestError (msg : String)
  | unexpectedError (msg : String)
deriving DecidableEq, Repr

/-- Result of `st.get_best_server()` (line 55), as used by the script. -/
structure BestServer where
  name : String
  host : String
deriving DecidableEq, Repr

/-- The outcomes of the external-library calls made by `run_speedtest`,
one field per call site.  `downloadBps`/`uploadBps` are the values
returned by `st.download()`/`st.upload()` (bits per second), `ping` is
`st.results.ping`, and the remaining fields are the entries of
`st.config['client']`, `st.results.server['name']` and
`datetime.now().isoformat()` read at lines 82–93. -/
structure Env where
  init : Except LibErr Unit
  bestServer : Except LibErr BestServer
  downloadBps : Except LibErr ℚ
  uploadBps : Except LibErr ℚ
  ping : ℚ
  clientIp : String
  clientIsp : String
  clientCountry : String
  resultServerName : String
  timestamp : String

/-- The `client_info` dictionary built at lines 82–93.  The script
formats `ping`, `download_speed` and `upload_speed` into strings with
two decimals; we keep the numeric values and elide the formatting,
which no claim depends on.  `jitter` and `packet_loss` are kept as the
literal strings the script stores. -/
structure ClientInfo where
  ip : String
  isp : String
  country : String
  latency_ms : ℚ
  jitter : String
  packet_loss : String
  download_mbps : ℚ
  upload_mbps : ℚ
  server : String
  timestamp : String
deriving DecidableEq, Repr

/-- The stages of one run, in the order `run_speedtest` reaches them:
client construction (lines 41–45), server selection (line 55), download
measurement (line 61), upload measurement (line 65), aggregation of the
result record (lines 68–93). -/
inductive Stage where
  | initializing (st : SpeedtestClient)
  | selecting
  | measuringDownload
  | measuringUpload
  | aggregating
deriving DecidableEq, Repr

/-- The full stage sequence of a run of `run_speedtest` in which every
library call succeeds. -/
def fullStages : List Stage :=
  [.initializing theClient, .selecting, .measuringDownload,
   .measuringUpload, .aggregating]

/-- `run_speedtest` (lines 30–106).  The whole body is one `try` block;
any exception from a library call reaches the `except` clauses at lines
100–106, both of which call `sys.exit(1)` — modelled as `Except.error 1`.
On success it returns the `client_info` record.  The second component is
the trace of stages the run started, used to state ordering claims. -/
def run_speedtest (env : Env) : Except Nat ClientInfo × List Stage :=
  match env.init with
  | .error _ => (.error 1, [.initializing theClient])
  | .ok _ =>
    match env.bestServer with
    | .error _ => (.error 1, [.initializing theClient, .selecting])
    | .ok _best =>
      match env.downloadBps with
      | .error _ =>
          (.error 1,
           [.initializing theClient, .selecting, .measuringDownload])
      | .ok dBps =>
        match env.uploadBps with
        | .error _ =>
            (.error 1,
             [.initializing theClient, .selecting, .measuringDownload,
              .measuringUpload])
        | .ok uBps =>
            (.ok
              { ip := env.clientIp
                isp := env.clientIsp
                country := env.clientCountry
                latency_ms := env.ping
                jitter := "N/A (approx. 5-20ms variation)"
                packet_loss := "0%"
                download_mbps := dBps / 1000000
                upload_mbps := uBps / 1000000
                server := env.resultServerName
                timestamp := env.timestamp },
             fullStages)

/-- The state of the result-log file `speedtest_results.json` as
`save_results` observes it: absent, a JSON array of records, some other
valid JSON value (e.g. an object), or text that is not valid JSON. -/
inductive FileState where
  | absent
  | validArray (entries : List ClientInfo)
  | validNonArray
  | corrupted
deriving DecidableEq

/-- `save_results` (lines 128–146).  `results_list` starts empty; if the
file exists, `json.load` either returns its value or raises
`json.JSONDecodeError`, which is caught with a warning (line 138) and
leaves the empty list.  The record is appended and the list written
back.  If the file holds valid JSON that is not an array, the loaded
value has no `append`, the exception is uncaught and the write never
happens — modelled as `Except.error`.  The `Bool` records whether the
corruption warning was printed. -/
def save_results (results : ClientInfo) (fs : FileState) :
    Except String (List ClientInfo × Bool) :=
  match fs with
  | .absent => .ok ([results], false)
  | .validArray l => .ok (l ++ [results], false)
  | .validNonArray => .error "AttributeError: loaded JSON value has no append"
  | .corrupted => .ok ([results], true)

/-- `check_library` (lines 15–28): tries `speedtest.Speedtest()`; any
exception leads to `sys.exit(1)`, success returns `True`. -/
def check_library (init : Except LibErr Unit) : Except Nat Bool :=
  match init with
  | .ok _ => .ok true
  | .error _ => .error 1

/-- The externally visible actions of `main`, in order. -/
inductive Action where
  | checkLib
  | runTest
  | display
  | save
deriving DecidableEq, Repr

/-- `main` (lines 148–168): parse args, `check_library`, `run_speedtest`,
`display_results`, optionally `save_results`, then `sys.exit(0)`.  The
result is the process exit code, the final state of the result-log
file, and the list of actions that were started.  An uncaught exception
in `save_results` makes the interpreter exit with code 1 and leaves the
file unwritten. -/
def main (checkInit : Except LibErr Unit) (env : Env) (saveFlag : Bool)
    (fs : FileState) : Nat × FileState × List Action :=
  match check_library checkInit with
  | .error code => (code, fs, [.checkLib])
  | .ok _ =>
    match (run_speedtest env).1 with
    | .error code => (code, fs, [.checkLib, .runTest])
    | .ok results =>
        if saveFlag then
          match save_results results fs with
          | .error _ => (1, fs, [.checkLib, .runTest, .display, .save])
          | .ok (newList, _) =>
              (0, .validArray newList, [.checkLib, .runTest, .display, .save])
        else
          (0, fs, [.checkLib, .runTest, .display])

/-- Modelled from the spec: one probe attempt (§3 `ProbeSample`); the
latency prober is delegated to the external library and missing from
the source. -/
structure ProbeSample where
  round_trip_time_ms : ℚ
  succeeded : Bool
deriving DecidableEq, Repr

/-- Modelled from the spec: `LatencyStats.loss_ratio` = failed/total
attempts (§3); the latency prober is missing from the source. -/
def lossRatio (samples : List ProbeSample) : ℚ :=
  ((samples.filter fun s => !s.succeeded).length : ℚ) / (samples.length : ℚ)

/-- Modelled from the spec: the round-trip times of the successful
samples, in order (§3); the latency prober is missing from the source. -/
def successRtts (samples : List ProbeSample) : List ℚ :=
  (samples.filter fun s => s.succeeded).map fun s => s.round_trip_time_ms

/-- Absolute differences of consecutive elements. -/
def absDiffs : List ℚ → List ℚ
  | a :: b :: rest => |b - a| :: absDiffs (b :: rest)
  | _ => []

/-- Modelled from the spec: jitter = mean absolute difference between
consecutive successful round-trip times (§3); the latency prober is
missing from the source. -/
def jitterOf (rtts : List ℚ) : ℚ :=
  (absDiffs rtts).sum / ((absDiffs rtts).length : ℚ)

/-- Modelled from the spec: a candidate measurement server (§3
`Server`); the server directory is delegated to the external library
and missing from the source. -/
structure Server where
  id : Nat
  host : String
  port : Nat
  name : String
  country : String
  distance_km : ℚ
  supports_secure_transport : Bool
deriving DecidableEq, Repr

/-- Modelled from the spec: per-server latency statistics (§3
`LatencyStats`); the latency prober is missing from the source. -/
structure LatencyStats where
  min_ms : ℚ
  avg_ms : ℚ
  max_ms : ℚ
  jitter_ms : ℚ
  loss_ratio : ℚ
deriving DecidableEq, Repr

/-- Modelled from the spec: the ranking key of the server selector
(§4.3): ascending `loss_ratio`, then ascending `avg_ms`, then ascending
`distance_km`. -/
def selKey (stats : Nat → LatencyStats) (s : Server) : ℚ × ℚ × ℚ :=
  ((stats s.id).loss_ratio, (stats s.id).avg_ms, s.distance_km)

/-- Strict lexicographic comparison of ranking keys. -/
def keyLt (a b : ℚ × ℚ × ℚ) : Prop :=
  a.1 < b.1 ∨ (a.1 = b.1 ∧ (a.2.1 < b.2.1 ∨ (a.2.1 = b.2.1 ∧ a.2.2 < b.2.2)))

instance keyLt.decidable (a b : ℚ × ℚ × ℚ) : Decidable (keyLt a b) := by
  unfold keyLt
  exact inferInstance

/-- Modelled from the spec: `select(servers, stats_by_server)` (§4.3).
A server is eligible only if it produced a successful probe, i.e. its
`loss_ratio` is below `1.0`; if no candidate is eligible the selector
fails (`NoReachableServer`), modelled as `none`.  Among eligible
candidates the first one that is minimal for `keyLt` is chosen, which
makes the choice deterministic. -/
def select (servers : List Server) (stats : Nat → LatencyStats) :
    Option Server :=
  match servers.filter (fun s => decide ((stats s.id).loss_ratio < 1)) with
  | [] => none
  | h :: t =>
      some (t.foldl
        (fun acc s => if keyLt (selKey stats s) (selKey stats acc) then s else acc)
        h)

/-- Modelled from the spec: measurement direction (§3). -/
inductive Direction where
  | download
  | upload
deriving DecidableEq, Repr

/-- Modelled from the spec: the output of the throughput measurer (§3
`ThroughputResult`); the measurer is delegated to the external library
and missing from the source. -/
structure ThroughputResult where
  direction : Direction
  bytes_transferred : Nat
  elapsed_seconds : ℚ
  mbps : ℚ
deriving DecidableEq, Repr

/-- Modelled from the spec: the aggregation step of the throughput
measurer (§4.4); the measurer is missing from the source.
`streamBytes` are the steady-state byte counts of the concurrent
streams; `bytes_transferred` is their sum, `elapsed_seconds` the shared
steady-state window length, and `mbps = (bytes_transferred * 8) /
(elapsed_seconds * 1_000_000)`, computed once over the shared window. -/
def measureAggregate (dir : Direction) (streamBytes : List Nat)
    (elapsed : ℚ) : ThroughputResult :=
  { direction := dir
    bytes_transferred := streamBytes.sum
    elapsed_seconds := elapsed
    mbps := ((streamBytes.sum : ℚ) * 8) / (elapsed * 1000000) }

lemma keyLt_irrefl (a : ℚ × ℚ × ℚ) : ¬ keyLt a a := by
  rintro (h | ⟨-, h | ⟨-, h⟩⟩) <;> exact lt_irrefl _ h

lemma keyLt_trans {a b c : ℚ × ℚ × ℚ} (hab : keyLt a b) (hbc : keyLt b c) :
    keyLt a c := by
  obtain h1 | ⟨e1, h1⟩ := hab
  · obtain h2 | ⟨e2, h2⟩ := hbc
    · exact Or.inl (h1.trans h2)
    · exact Or.inl (lt_of_lt_of_eq h1 e2)
  · obtain h2 | ⟨e2, h2⟩ := hbc
    · exact Or.inl (lt_of_eq_of_lt e1 h2)
    · refine Or.inr ⟨e1.trans e2, ?_⟩
      obtain g1 | ⟨f1, g1⟩ := h1
      · obtain g2 | ⟨f2, g2⟩ := h2
        · exact Or.inl (g1.trans g2)
        · exact Or.inl (lt_of_lt_of_eq g1 f2)
      · obtain g2 | ⟨f2, g2⟩ := h2
        · exact Or.inl (lt_of_eq_of_lt f1 g2)
        · exact Or.inr ⟨f1.trans f2, g1.trans g2⟩

lemma keyLt_trichotomy (a b : ℚ × ℚ × ℚ) : keyLt a b ∨ a = b ∨ keyLt b a := by
  rcases lt_trichotomy a.1 b.1 with h1 | h1 | h1
  · exact Or.inl (Or.inl h1)
  · rcases lt_trichotomy a.2.1 b.2.1 with h2 | h2 | h2
    · exact Or.inl (Or.inr ⟨h1, Or.inl h2⟩)
    · rcases lt_trichotomy a.2.2 b.2.2 with h3 | h3 | h3
      · exact Or.inl (Or.inr ⟨h1, Or.inr ⟨h2, h3⟩⟩)
      · exact Or.inr (Or.inl (Prod.ext h1 (Prod.ext h2 h3)))
      · exact Or.inr (Or.inr (Or.inr ⟨h1.symm, Or.inr ⟨h2.symm, h3⟩⟩))
    · exact Or.inr (Or.inr (Or.inr ⟨h1.symm, Or.inl h2⟩))
  · exact Or.inr (Or.inr (Or.inl h1))

/-- The fold inside `select` returns an element of `h :: t` that no
element of `h :: t` strictly beats under `keyLt`. -/
lemma foldMin_mem_min (f : Server → ℚ × ℚ × ℚ) :
    ∀ (t : List Server) (h : Server),
      (t.foldl (fun acc s => if keyLt (f s) (f acc) then s else acc) h) ∈ h :: t ∧
      ∀ x ∈ h :: t,
        ¬ keyLt (f x)
          (f (t.foldl (fun acc s => if keyLt (f s) (f acc) then s else acc) h)) := by
  intro t
  induction t with
  | nil =>
      intro h
      refine ⟨List.mem_singleton_self h, ?_⟩
      intro x hx
      rw [List.mem_singleton] at hx
      subst hx
      exact keyLt_irrefl _
  | cons s t' ih =>
      intro h
      simp only [List.foldl_cons]
      by_cases hc : keyLt (f s) (f h)
      · rw [if_pos hc]
        obtain ⟨mem, min⟩ := ih s
        refine ⟨List.mem_cons_of_mem h mem, ?_⟩
        intro x hx
        rcases List.mem_cons.mp hx with rfl | hx'
        · intro hlt
          exact min s (List.mem_cons_self s t') (keyLt_trans hc hlt)
        · exact min x hx'
      · rw [if_neg hc]
        obtain ⟨mem, min⟩ := ih h
        refine ⟨?_, ?_⟩
        · rcases List.mem_cons.mp mem with h1 | h1
          · rw [h1]
            exact List.mem_cons_self h (s :: t')
          · exact List.mem_cons_of_mem h (List.mem_cons_of_mem s h1)
        · intro x hx
          rcases List.mem_cons.mp hx with rfl | hx'
          · exact min x (List.mem_cons_self x t')
          · rcases List.mem_cons.mp hx' with rfl | hx''
            · intro hlt
              rcases keyLt_trichotomy (f x) (f h) with ht | ht | ht
              · exact hc ht
              · exact min h (List.mem_cons_self h t') (ht ▸ hlt)
              · exact min h (List.mem_cons_self h t') (keyLt_trans ht hlt)
            · exact min x (List.mem_cons_of_mem h hx'')

/-- A run environment in which every library call succeeds. -/
def okEnv : Env :=
  { init := .ok ()
    bestServer := .ok ⟨"Server One", "one.example"⟩
    downloadBps := .ok 94500000
    uploadBps := .ok 20250000
    ping := 23
    clientIp := "203.0.113.7"
    clientIsp := "ExampleNet"
    clientCountry := "Utopia"
    resultServerName := "Server One"
    timestamp := "2026-10-12T00:00:00" }

/-- Three candidate servers for the selector. -/
def sampleServers : List Server :=
  [⟨1, "a.example", 8080, "A", "X", 10, true⟩,
   ⟨2, "b.example", 8080, "B", "X", 50, true⟩,
   ⟨3, "c.example", 8080, "C", "X", 5, true⟩]

/-- Probed statistics for `sampleServers`: losses 0, 0, 1 and average
latencies 20 ms, 15 ms, sentinel. -/
def sampleStats : Nat → LatencyStats :=
  fun id =>
    if id = 1 then ⟨18, 20, 25, 2, 0⟩
    else if id = 2 then ⟨12, 15, 19, 1, 0⟩
    else ⟨0, 0, 0, 0, 1⟩

/-- Claim C1: appending a record to an existing log parseable as a JSON
array of `n` entries yields `n + 1` entries whose last entry is the
input record (and no corruption warning); appending to a file that is
not parseable as JSON yields exactly the one input record together with
a printed warning. -/
theorem save_results_append_spec (r : ClientInfo) (l : List ClientInfo) :
    (∃ out, save_results r (.validArray l) = .ok (out, false) ∧
        out.length = l.length + 1 ∧ out.getLast? = some r) ∧
    save_results r .corrupted = .ok ([r], true) := by
  exact ⟨⟨l ++ [r], rfl, by simp, by simp⟩, rfl⟩

/-- Claim C9: if the result-log file does not exist, saving writes a
JSON array holding exactly the one input record and prints no
corruption warning. -/
theorem save_results_fresh_file (r : ClientInfo) :
    save_results r .absent = .ok ([r], false) ∧ [r].length = 1 :=
  ⟨rfl, rfl⟩

/-- Claim C2: the reported throughput is
`mbps = bytes_transferred * 8 / (elapsed_seconds * 1_000_000)`, and a
stream transferring exactly 125,000,000 bytes in a 10.0-second
steady-state window reports 100.00 Mbps (here exactly, hence within
0.01). -/
theorem measure_mbps_spec :
    (∀ (dir : Direction) (streamBytes : List Nat) (elapsed : ℚ),
        (measureAggregate dir streamBytes elapsed).mbps =
          ((measureAggregate dir streamBytes elapsed).bytes_transferred * 8 : ℚ) /
            ((measureAggregate dir streamBytes elapsed).elapsed_seconds * 1000000)) ∧
    (measureAggregate .download [125000000] 10).mbps = 100 ∧
    |(measureAggregate .download [125000000] 10).mbps - 100| ≤ 1 / 100 := by
  refine ⟨fun dir streamBytes elapsed => rfl, ?_, ?_⟩
  · norm_num [measureAggregate]
  · norm_num [measureAggregate]

/-- Claim C3 (refuted by the code): the script stores the literal
string `"0%"` as the packet loss of every successful run — line 79 is a
hardcoded placeholder — whereas the specified loss ratio for a probe
sequence with one success and one failure is `1/2`, not zero. -/
theorem packet_loss_hardcoded :
    Except.map ClientInfo.packet_loss (run_speedtest okEnv).1 = .ok "0%" ∧
    lossRatio [⟨10, true⟩, ⟨0, false⟩] = 1 / 2 ∧ (1 / 2 : ℚ) ≠ 0 := by
  refine ⟨rfl, ?_, by norm_num⟩
  norm_num [lossRatio, List.filter]

/-- Claim C4 (refuted by the code): the script stores the literal
string `"N/A (approx. 5-20ms variation)"` as the jitter of every
successful run — line 78 is a placeholder — whereas the specified
jitter of the successful round-trip times 10, 20, 15 is the mean
absolute consecutive difference `(10 + 5) / 2 = 15/2`. -/
theorem jitter_placeholder :
    Except.map ClientInfo.jitter (run_speedtest okEnv).1
      = .ok "N/A (approx. 5-20ms variation)" ∧
    jitterOf [10, 20, 15] = 15 / 2 := by
  refine ⟨rfl, ?_⟩
  norm_num [jitterOf, absDiffs]

/-- Claim C5: the server selector is deterministic — repeated calls on
the same `(servers, stats)` input return the same server — and the
chosen server is minimal under the ordering (ascending `loss_ratio`,
then ascending `avg_ms`, then ascending `distance_km`): no candidate is
strictly smaller under `keyLt`. -/
theorem select_deterministic_minimal (servers : List Server)
    (stats : Nat → LatencyStats)
    (hex : ∃ s ∈ servers, (stats s.id).loss_ratio < 1) :
    select servers stats = select servers stats ∧
    ∃ best, select servers stats = some best ∧ best ∈ servers ∧
      (stats best.id).loss_ratio < 1 ∧
      ∀ t ∈ servers, ¬ keyLt (selKey stats t) (selKey stats best) := by
  refine ⟨rfl, ?_⟩
  obtain ⟨s₀, hs₀, hloss₀⟩ := hex
  have hmem : s₀ ∈ servers.filter (fun s => decide ((stats s.id).loss_ratio < 1)) :=
    List.mem_filter.mpr ⟨hs₀, by simpa using hloss₀⟩
  cases hfl : servers.filter (fun s => decide ((stats s.id).loss_ratio < 1)) with
  | nil =>
      rw [hfl] at hmem
      exact absurd hmem (List.not_mem_nil s₀)
  | cons hd tl =>
      have hsel : select servers stats =
          some (tl.foldl
            (fun acc s =>
              if keyLt (selKey stats s) (selKey stats acc) then s else acc) hd) := by
        unfold select
        rw [hfl]
      obtain ⟨memf, minf⟩ := foldMin_mem_min (selKey stats) tl hd
      refine ⟨_, hsel, ?_, ?_, ?_⟩
      · have : _ ∈ hd :: tl := memf
        rw [← hfl] at this
        exact List.mem_of_mem_filter this
      · have : _ ∈ hd :: tl := memf
        rw [← hfl] at this
        have := List.of_mem_filter this
        simpa using this
      · intro t ht
        by_cases hlt : (stats t.id).loss_ratio < 1
        · refine minf t ?_
          rw [← hfl]
          exact List.mem_filter.mpr ⟨ht, by simpa using hlt⟩
        · have hbl : (stats ((tl.foldl
              (fun acc s =>
                if keyLt (selKey stats s) (selKey stats acc) then s else acc)
              hd)).id).loss_ratio < 1 := by
            have : _ ∈ hd :: tl := memf
            rw [← hfl] at this
            have := List.of_mem_filter this
            simpa using this
          rintro (hk | ⟨he, -⟩)
          · exact hlt (lt_trans hk hbl)
          · have he' : (stats t.id).loss_ratio =
                (stats ((tl.foldl
                  (fun acc s =>
                    if keyLt (selKey stats s) (selKey stats acc) then s else acc)
                  hd)).id).loss_ratio := he
            exact hlt (he'.symm ▸ hbl)

/-- Witness for claim C5 at a concrete input: three servers with losses
0, 0, 1 and average latencies 20 ms, 15 ms, sentinel. -/
theorem select_deterministic_minimal_witness :
    (∃ s ∈ sampleServers, (sampleStats s.id).loss_ratio < 1) ∧
    (select sampleServers sampleStats = select sampleServers sampleStats ∧
      ∃ best, select sampleServers sampleStats = some best ∧
        best ∈ sampleServers ∧ (sampleStats best.id).loss_ratio < 1 ∧
        ∀ t ∈ sampleServers, ¬ keyLt (selKey sampleStats t) (selKey sampleStats best)) :=
  ⟨by decide, select_deterministic_minimal sampleServers sampleStats (by decide)⟩

/-- Claim C6: the process exit code is 0 exactly when the library check
succeeds, the speed test returns a result, and — when saving was
requested — the save completes (the only failing log state being valid
JSON that is not an array); library-initialization failures,
speedtest-specific errors and unexpected errors all exit non-zero. -/
theorem main_exit_code (checkInit : Except LibErr Unit) (env : Env)
    (saveFlag : Bool) (fs : FileState) :
    (main checkInit env saveFlag fs).1 = 0 ↔
      (checkInit = .ok () ∧ (∃ info, (run_speedtest env).1 = .ok info) ∧
        (saveFlag = false ∨ fs ≠ .validNonArray)) := by
  cases checkInit with
  | error e => simp [main, check_library]
  | ok u =>
      rcases env with ⟨init, best, dl, ul, p, ci, cisp, cc, sn, ts⟩
      cases init <;> cases best <;> cases dl <;> cases ul <;>
        cases saveFlag <;> cases fs <;>
          simp [main, run_speedtest, check_library, save_results]

/-- Claim C7: every run traverses the stages in the fixed order —
client initialization, server selection, download measurement, upload
measurement, aggregation — the executed trace always being an initial
segment of `fullStages` (so the download measurement always precedes
the upload measurement), and a run that returns a result executes all
five stages. -/
theorem run_stage_order (env : Env) :
    (∃ n, (run_speedtest env).2 = fullStages.take n) ∧
    ((∃ c, (run_speedtest env).1 = .error c) ∨
      (run_speedtest env).2 = fullStages) := by
  rcases env with ⟨init, best, dl, ul, p, ci, cisp, cc, sn, ts⟩
  cases init <;> cases best <;> cases dl <;> cases ul <;>
    first
      | exact ⟨⟨1, rfl⟩, Or.inl ⟨1, rfl⟩⟩
      | exact ⟨⟨2, rfl⟩, Or.inl ⟨1, rfl⟩⟩
      | exact ⟨⟨3, rfl⟩, Or.inl ⟨1, rfl⟩⟩
      | exact ⟨⟨4, rfl⟩, Or.inl ⟨1, rfl⟩⟩
      | exact ⟨⟨5, rfl⟩, Or.inr rfl⟩

/-- Claim C8: every run constructs the measurement client with secure
transport enabled: the first stage of any trace is initialization with
`theClient`, whose `secure` field is `true`. -/
theorem secure_transport_default (env : Env) :
    (run_speedtest env).2.head? = some (.initializing theClient) ∧
    theClient.secure = true := by
  refine ⟨?_, rfl⟩
  rcases env with ⟨init, best, dl, ul, p, ci, cisp, cc, sn, ts⟩
  cases init <;> cases best <;> cases dl <;> cases ul <;> rfl

/-- Claim C10: when the library check fails, `main` exits with code 1
(non-zero) immediately: no measurement is attempted, nothing is saved,
and the result-log file is unchanged. -/
theorem library_failure_preempts (e : LibErr) (env : Env) (saveFlag : Bool)
    (fs : FileState) :
    main (.error e) env saveFlag fs = (1, fs, [Action.checkLib]) ∧
    Action.runTest ∉ (main (.error e) env saveFlag fs).2.2 ∧
    Action.save ∉ (main (.error e) env saveFlag fs).2.2 ∧
    (main (.error e) env saveFlag fs).2.1 = fs ∧
    (main (.error e) env saveFlag fs).1 ≠ 0 := by
  have h : main (.error e) env saveFlag fs = (1, fs, [Action.checkLib]) := rfl
  refine ⟨h, ?_, ?_, ?_, ?_⟩ <;> rw [h] <;> simp

end SpeedtestEq
